import Mathlib

/-!
Verification of the x402 seller-middleware core against its specification.

The Go sources are embedded shallowly:

* Go `int64` values (amounts, counters, Unix times) are modelled as `Int`;
  the properties below concern the budget/session/metering logic, where the
  source never relies on two's-complement wrap-around.
* `time.Time` values are modelled as `Int` instants; Go's `a.After(b)` is
  `a > b` and `time.Now()` becomes an explicit `now : Int` argument.
* Go maps are modelled as association lists with replace-on-insert
  (`insertKey`), which matches map assignment for the per-key lookups the
  spec talks about.
* Mutating methods on a store become functions returning the new store
  state; a method that returns `error` returns the error alongside the
  (possibly unchanged) state.
-/

/-- Lookup in an association list: the model of a Go map read `m[k]`. -/
def lookupKey {α : Type} (k : String) : List (String × α) → Option α
  | [] => none
  | (k', v) :: rest => if k' = k then some v else lookupKey k rest

/-- Insert/replace in an association list: the model of a Go map write `m[k] = v`. -/
def insertKey {α : Type} (k : String) (v : α) : List (String × α) → List (String × α)
  | [] => [(k, v)]
  | (k', v') :: rest => if k' = k then (k, v) :: rest else (k', v') :: insertKey k v rest

/-- Key removal: the model of Go `delete(m, k)`. -/
def eraseKey {α : Type} (k : String) : List (String × α) → List (String × α)
  | [] => []
  | (k', v') :: rest => if k' = k then eraseKey k rest else (k', v') :: eraseKey k rest

theorem lookupKey_insertKey_self {α : Type} (k : String) (v : α) (l : List (String × α)) :
    lookupKey k (insertKey k v l) = some v := by
  induction l with
  | nil => simp [lookupKey, insertKey]
  | cons hd tl ih =>
    by_cases h : hd.1 = k <;> simp [lookupKey, insertKey, h, ih]

theorem lookupKey_insertKey_ne {α : Type} (k k' : String) (v : α) (l : List (String × α))
    (h : k' ≠ k) : lookupKey k' (insertKey k v l) = lookupKey k' l := by
  have h' : ¬ k = k' := fun hh => h hh.symm
  induction l with
  | nil => simp [lookupKey, insertKey, h']
  | cons hd tl ih =>
    by_cases hk : hd.1 = k
    · simp [lookupKey, insertKey, hk, h', h]
    · by_cases hk' : hd.1 = k' <;> simp [lookupKey, insertKey, hk, hk', ih, h, h']

/-- The model of Go `strings.HasPrefix s pre`. -/
def strHasPre (s pre : String) : Bool :=
  pre.data.isPrefixOf s.data

/-- The model of Go `strings.TrimPrefix s pre`. -/
def strTrimPre (s pre : String) : String :=
  if strHasPre s pre then ⟨s.data.drop pre.data.length⟩ else s

/-!
## Budget store (`InMemoryPreAuthStore`, middleware.go)
-/

/-- `PreAuthBudget` from middleware.go (the free-form `Metadata` map carries no
logic and is omitted). -/
structure PreAuthBudget where
  id : String
  agentID : String
  walletAddress : String
  totalBudget : Int
  remaining : Int
  currency : String
  createdAt : Int
  expiresAt : Int
  totalSpent : Int
  requestCount : Int
  deriving Repr, DecidableEq

/-- The two maps held by `InMemoryPreAuthStore` (the mutex guards concurrent
access and has no sequential meaning). -/
structure PreAuthStoreState where
  budgets : List (String × PreAuthBudget)
  byAgent : List (String × String)
  deriving Repr, DecidableEq

/-- The errors `Deduct`/`Refund` can return (`fmt.Errorf("budget not found")`,
`fmt.Errorf("insufficient budget")`). -/
inductive PreAuthErr where
  | budgetNotFound
  | insufficientBudget
  deriving Repr, DecidableEq

/-- Model of `hex.EncodeToString` on a byte list. -/
def hexEncode (bs : List Nat) : String :=
  ⟨bs.foldr (fun b acc =>
      "0123456789abcdef".data.getD (b / 16) '0' ::
      "0123456789abcdef".data.getD (b % 16) '0' :: acc) []⟩

/-- `generateBudgetID` from middleware.go: it allocates a 16-byte buffer and
hex-encodes it WITHOUT ever filling it with random data (contrast
`generateSessionID`, which calls `rand.Read`), so the buffer stays all zero. -/
def generateBudgetID : String :=
  "budget_" ++ hexEncode (List.replicate 16 0)

/-- `InMemoryPreAuthStore.Create`: assigns the generated id when the id is
empty, stamps the creation time, sets `Remaining = TotalBudget`, and stores
the record in both indexes. Always returns nil error. -/
def preAuthCreate (s : PreAuthStoreState) (budget : PreAuthBudget) (now : Int) :
    PreAuthStoreState :=
  let b1 := if budget.id = "" then { budget with id := generateBudgetID } else budget
  let b2 := { b1 with createdAt := now, remaining := b1.totalBudget }
  { budgets := insertKey b2.id b2 s.budgets
    byAgent := if b2.agentID ≠ "" then insertKey b2.agentID b2.id s.byAgent else s.byAgent }

/-- `InMemoryPreAuthStore.GetByAgentID` followed by the map read of the primary
index (Go returns `s.budgets[budgetID]`, which is nil when absent). -/
def preAuthGetByAgent (s : PreAuthStoreState) (agentID : String) : Option PreAuthBudget :=
  match lookupKey agentID s.byAgent with
  | none => none
  | some budgetID => lookupKey budgetID s.budgets

/-- `InMemoryPreAuthStore.Deduct`: returns the error (if any) together with the
resulting store state. -/
def preAuthDeduct (s : PreAuthStoreState) (id : String) (amount : Int) :
    Option PreAuthErr × PreAuthStoreState :=
  match lookupKey id s.budgets with
  | none => (some .budgetNotFound, s)
  | some b =>
    if b.remaining < amount then (some .insufficientBudget, s)
    else
      let b' := { b with remaining := b.remaining - amount
                         totalSpent := b.totalSpent + amount
                         requestCount := b.requestCount + 1 }
      (none, { s with budgets := insertKey id b' s.budgets })

/-- `InMemoryPreAuthStore.Refund`: unconditionally adds back to `Remaining`
and subtracts from `TotalSpent`. -/
def preAuthRefund (s : PreAuthStoreState) (id : String) (amount : Int) :
    Option PreAuthErr × PreAuthStoreState :=
  match lookupKey id s.budgets with
  | none => (some .budgetNotFound, s)
  | some b =>
    let b' := { b with remaining := b.remaining + amount
                       totalSpent := b.totalSpent - amount }
    (none, { s with budgets := insertKey id b' s.budgets })

/-- One deduct or refund operation against a single budget. -/
inductive BudgetOp where
  | deduct (amount : Int)
  | refund (amount : Int)
  deriving Repr, DecidableEq

/-- The amount carried by an operation. -/
def BudgetOp.amount : BudgetOp → Int
  | .deduct a => a
  | .refund a => a

/-- The effect of one operation on the budget it targets, exactly as
`Deduct`/`Refund` mutate the record they find (a failed deduct leaves the
record untouched). -/
def applyBudgetOp (b : PreAuthBudget) : BudgetOp → PreAuthBudget
  | .deduct a =>
    if b.remaining < a then b
    else { b with remaining := b.remaining - a
                  totalSpent := b.totalSpent + a
                  requestCount := b.requestCount + 1 }
  | .refund a =>
    { b with remaining := b.remaining + a
             totalSpent := b.totalSpent - a }

/-- `applyBudgetOp` agrees with the store-level `Deduct` on the targeted key. -/
theorem lookup_preAuthDeduct (s : PreAuthStoreState) (id : String) (a : Int)
    (b : PreAuthBudget) (h : lookupKey id s.budgets = some b) :
    lookupKey id (preAuthDeduct s id a).2.budgets = some (applyBudgetOp b (.deduct a)) := by
  by_cases hlt : b.remaining < a
  · simp [preAuthDeduct, h, hlt, applyBudgetOp]
  · simp [preAuthDeduct, h, hlt, applyBudgetOp, lookupKey_insertKey_self]

/-- `applyBudgetOp` agrees with the store-level `Refund` on the targeted key. -/
theorem lookup_preAuthRefund (s : PreAuthStoreState) (id : String) (a : Int)
    (b : PreAuthBudget) (h : lookupKey id s.budgets = some b) :
    lookupKey id (preAuthRefund s id a).2.budgets = some (applyBudgetOp b (.refund a)) := by
  simp [preAuthRefund, h, applyBudgetOp, lookupKey_insertKey_self]

/-- Folding a sequence of operations over one budget. -/
def runBudgetOps (b : PreAuthBudget) (ops : List BudgetOp) : PreAuthBudget :=
  ops.foldl applyBudgetOp b

/-- The budget record produced by `Create` for a fresh top-up of `t` units
(id supplied, no agent index entry needed for the single-budget claims). -/
def freshBudget (t : Int) : PreAuthBudget :=
  { id := "b1", agentID := "", walletAddress := "", totalBudget := t
    remaining := t, currency := "USDC", createdAt := 0, expiresAt := 0
    totalSpent := 0, requestCount := 0 }

theorem applyBudgetOp_remaining_nonneg (b : PreAuthBudget) (op : BudgetOp)
    (hb : 0 ≤ b.remaining) (hop : 0 ≤ op.amount) :
    0 ≤ (applyBudgetOp b op).remaining := by
  cases op with
  | deduct a =>
    by_cases hlt : b.remaining < a
    · simpa [applyBudgetOp, hlt] using hb
    · simp [applyBudgetOp, hlt]
      omega
  | refund a =>
    simp only [applyBudgetOp]
    have : (0 : Int) ≤ a := hop
    omega

theorem applyBudgetOp_sum (b : PreAuthBudget) (op : BudgetOp) :
    (applyBudgetOp b op).remaining + (applyBudgetOp b op).totalSpent =
      b.remaining + b.totalSpent := by
  cases op with
  | deduct a =>
    by_cases hlt : b.remaining < a <;> simp [applyBudgetOp, hlt]
  | refund a =>
    simp [applyBudgetOp]

theorem runBudgetOps_remaining_nonneg (ops : List BudgetOp) (b : PreAuthBudget)
    (hb : 0 ≤ b.remaining) (hops : ∀ op ∈ ops, 0 ≤ op.amount) :
    0 ≤ (runBudgetOps b ops).remaining := by
  induction ops generalizing b with
  | nil => simpa [runBudgetOps] using hb
  | cons op rest ih =>
    have h1 : 0 ≤ (applyBudgetOp b op).remaining :=
      applyBudgetOp_remaining_nonneg b op hb (hops op (List.mem_cons_self op rest))
    have := ih (applyBudgetOp b op) h1 (fun o ho => hops o (List.mem_cons_of_mem op ho))
    simpa [runBudgetOps] using this

theorem runBudgetOps_sum (ops : List BudgetOp) (b : PreAuthBudget) :
    (runBudgetOps b ops).remaining + (runBudgetOps b ops).totalSpent =
      b.remaining + b.totalSpent := by
  induction ops generalizing b with
  | nil => simp [runBudgetOps]
  | cons op rest ih =>
    have h1 := applyBudgetOp_sum b op
    have h2 := ih (applyBudgetOp b op)
    simp only [runBudgetOps, List.foldl_cons] at *
    omega

/-- C1: `Deduct(id, a)` fails with `InsufficientBudget` when `a > remaining`
and with a not-found error when the id is unknown; on any failure the store
(and hence the budget's remaining, spent and request-count fields) is
unchanged; on success remaining drops by exactly `a`, spent grows by exactly
`a`, and the request count grows by one. -/
theorem preAuthDeduct_spec (s : PreAuthStoreState) (id : String) (a : Int) :
    (lookupKey id s.budgets = none → preAuthDeduct s id a = (some .budgetNotFound, s)) ∧
    (∀ b : PreAuthBudget, lookupKey id s.budgets = some b → a > b.remaining →
      preAuthDeduct s id a = (some .insufficientBudget, s)) ∧
    (∀ b : PreAuthBudget, lookupKey id s.budgets = some b → a ≤ b.remaining →
      (preAuthDeduct s id a).1 = none ∧
      lookupKey id (preAuthDeduct s id a).2.budgets =
        some { b with remaining := b.remaining - a, totalSpent := b.totalSpent + a,
                      requestCount := b.requestCount + 1 }) := by
  refine ⟨fun h => by simp [preAuthDeduct, h], fun b hb hgt => ?_, fun b hb hle => ?_⟩
  · have : b.remaining < a := hgt
    simp [preAuthDeduct, hb, this]
  · have : ¬ b.remaining < a := not_lt.mpr hle
    exact ⟨by simp [preAuthDeduct, hb, this], by simp [preAuthDeduct, hb, this, lookupKey_insertKey_self]⟩

/-- The spec scenario store: budget of 100 units, after one deduct of 60. -/
def demoStore0 : PreAuthStoreState := preAuthCreate ⟨[], []⟩ (freshBudget 100) 0

def demoStore1 : PreAuthStoreState := (preAuthDeduct demoStore0 "b1" 60).2

def demoBudget40 : PreAuthBudget :=
  { freshBudget 100 with remaining := 40, totalSpent := 60, requestCount := 1 }

/-- Witness for C1 on the spec scenario: after a budget of 100 and a deduct
of 60, a second deduct of 60 fails with the insufficient-budget error and the
stored record still has remaining 40. -/
theorem preAuthDeduct_spec_witness :
    preAuthDeduct demoStore1 "b1" 60 = (some PreAuthErr.insufficientBudget, demoStore1) ∧
    lookupKey "b1" demoStore1.budgets = some demoBudget40 ∧
    demoBudget40.remaining = 40 :=
  ⟨(preAuthDeduct_spec demoStore1 "b1" 60).2.1 demoBudget40 (by decide) (by decide),
   by decide, by decide⟩

/-- C2 (amended): starting from a freshly created budget of total `t ≥ 0`,
for any sequence of deduct/refund operations with non-negative amounts,
`remaining` is non-negative after every prefix of the sequence (it never goes
negative), and `remaining + totalSpent = t` holds after every sequence — in
particular after any refund-balanced one. The original upper bound
`remaining ≤ t` after arbitrary operations is refuted by
`budget_upper_bound_cex`. -/
theorem budget_invariant (t : Int) (ops : List BudgetOp)
    (ht : 0 ≤ t) (hops : ∀ op ∈ ops, 0 ≤ op.amount) :
    (∀ n : Nat, 0 ≤ (runBudgetOps (freshBudget t) (ops.take n)).remaining) ∧
    (runBudgetOps (freshBudget t) ops).remaining +
      (runBudgetOps (freshBudget t) ops).totalSpent = t := by
  constructor
  · intro n
    exact runBudgetOps_remaining_nonneg (ops.take n) (freshBudget t) ht
      (fun op hop => hops op (List.take_subset n ops hop))
  · have := runBudgetOps_sum ops (freshBudget t)
    simpa [freshBudget] using this

/-- Counterexample to C2 as stated: a budget of 100 followed by a single
(unmatched) refund of 50 — a non-negative amount — ends with remaining 150,
violating the claimed invariant `remaining ≤ total` after each operation. -/
theorem budget_upper_bound_cex :
    (0 : Int) ≤ 100 ∧ 0 ≤ (BudgetOp.refund 50).amount ∧
    ¬ (runBudgetOps (freshBudget 100) [BudgetOp.refund 50]).remaining ≤ 100 := by
  decide

/-- Witness for C2 (amended) on the spec scenario sequence
deduct 60 / deduct 60 over a budget of 100. -/
theorem budget_invariant_witness :
    (0 : Int) ≤ 100 ∧ (∀ op ∈ [BudgetOp.deduct 60, BudgetOp.deduct 60], 0 ≤ op.amount) ∧
    (∀ n : Nat,
      0 ≤ (runBudgetOps (freshBudget 100) ([BudgetOp.deduct 60, BudgetOp.deduct 60].take n)).remaining) ∧
    (runBudgetOps (freshBudget 100) [BudgetOp.deduct 60, BudgetOp.deduct 60]).remaining +
      (runBudgetOps (freshBudget 100) [BudgetOp.deduct 60, BudgetOp.deduct 60]).totalSpent = 100 := by
  have hops : ∀ op ∈ [BudgetOp.deduct 60, BudgetOp.deduct 60], 0 ≤ op.amount := by decide
  have h := budget_invariant 100 [BudgetOp.deduct 60, BudgetOp.deduct 60] (by decide) hops
  exact ⟨by decide, hops, h.1, h.2⟩

/-- C9: `generateBudgetID` never fills its 16-byte buffer, so it always
returns `"budget_"` followed by 32 zero hex digits; every `Create` with an
empty id assigns exactly this identifier, and a second such `Create`
overwrites the first record in the primary index. -/
theorem generateBudgetID_constant (s : PreAuthStoreState) (b1 b2 : PreAuthBudget)
    (n1 n2 : Int) :
    generateBudgetID = "budget_00000000000000000000000000000000" ∧
    (b1.id = "" →
      lookupKey generateBudgetID (preAuthCreate s b1 n1).budgets =
        some { b1 with id := generateBudgetID, createdAt := n1, remaining := b1.totalBudget }) ∧
    (b1.id = "" → b2.id = "" →
      lookupKey generateBudgetID (preAuthCreate (preAuthCreate s b1 n1) b2 n2).budgets =
        some { b2 with id := generateBudgetID, createdAt := n2, remaining := b2.totalBudget }) := by
  refine ⟨by decide, fun h1 => ?_, fun h1 h2 => ?_⟩
  · simp [preAuthCreate, h1, lookupKey_insertKey_self]
  · simp [preAuthCreate, h2, lookupKey_insertKey_self]

/-- A zero-valued budget with empty id, for the C9 witness. -/
def cexBudgetA : PreAuthBudget :=
  { id := "", agentID := "", walletAddress := "", totalBudget := 5, remaining := 0
    currency := "", createdAt := 0, expiresAt := 0, totalSpent := 0, requestCount := 0 }

def cexBudgetB : PreAuthBudget := { cexBudgetA with totalBudget := 7 }

/-- Witness for C9: two concrete creates with empty ids; the primary index
ends up holding the second record under the one constant identifier. -/
theorem generateBudgetID_constant_witness :
    generateBudgetID = "budget_00000000000000000000000000000000" ∧
    lookupKey generateBudgetID
        (preAuthCreate (preAuthCreate ⟨[], []⟩ cexBudgetA 1) cexBudgetB 2).budgets =
      some { cexBudgetB with id := generateBudgetID, createdAt := 2,
                             remaining := cexBudgetB.totalBudget } :=
  ⟨(generateBudgetID_constant ⟨[], []⟩ cexBudgetA cexBudgetB 1 2).1,
   (generateBudgetID_constant ⟨[], []⟩ cexBudgetA cexBudgetB 1 2).2.2 rfl rfl⟩

/-!
## JSON values

A small JSON AST with a renderer, modelling what `encoding/json` produces for
the concrete (cycle-free, string/int/bool-valued) structures this package
marshals. Only quote and backslash escaping can arise in the strings at hand.
-/

inductive Json where
  | jnull
  | jbool (b : Bool)
  | jnum (n : Int)
  | jstr (s : String)
  | jarr (xs : List Json)
  | jobj (fields : List (String × Json))

/-- Decimal rendering of an `Int`, as `fmt.Sprintf("%d", n)` produces. -/
def intRepr (n : Int) : String :=
  if n < 0 then "-" ++ Nat.repr n.natAbs else Nat.repr n.toNat

def jsonEscape (s : String) : String :=
  ⟨s.data.foldr (fun c acc =>
      (if c = '"' then ['\\', '"'] else if c = '\\' then ['\\', '\\'] else [c]) ++ acc) []⟩

mutual

def renderJson : Json → String
  | .jnull => "null"
  | .jbool b => if b then "true" else "false"
  | .jnum n => intRepr n
  | .jstr s => "\"" ++ jsonEscape s ++ "\""
  | .jarr xs => "[" ++ renderJsonList xs ++ "]"
  | .jobj fs => "\x7b" ++ renderJsonFields fs ++ "\x7d"

def renderJsonList : List Json → String
  | [] => ""
  | [x] => renderJson x
  | x :: y :: rest => renderJson x ++ "," ++ renderJsonList (y :: rest)

def renderJsonFields : List (String × Json) → String
  | [] => ""
  | [(k, v)] => "\"" ++ jsonEscape k ++ "\":" ++ renderJson v
  | (k, v) :: f :: rest =>
    "\"" ++ jsonEscape k ++ "\":" ++ renderJson v ++ "," ++ renderJsonFields (f :: rest)

end

/-!
## HTTP requests and responses
-/

/-- The parts of `*http.Request` the middleware reads. -/
structure HttpRequest where
  method : String
  path : String
  rawQuery : String
  query : List (String × String)
  headers : List (String × String)
  deriving Repr, DecidableEq

/-- `r.Header.Get(k)`: empty string when the header is absent. -/
def getHeader (req : HttpRequest) (k : String) : String :=
  (lookupKey k req.headers).getD ""

/-- `r.URL.Query().Get(k)`. -/
def getQuery (req : HttpRequest) (k : String) : String :=
  (lookupKey k req.query).getD ""

/-- The externally visible response: status, headers and body bytes. -/
structure HttpResponse where
  status : Int
  headers : List (String × String)
  body : String
  deriving Repr, DecidableEq

/-- `w.Header().Set(k, v)`. -/
def setHeader (hs : List (String × String)) (k v : String) : List (String × String) :=
  insertKey k v hs

/-- A sequence of `Set` calls, one per entry of `hs`, over `base`. -/
def mergeHeaders (base : List (String × String)) (hs : List (String × String)) :
    List (String × String) :=
  hs.foldl (fun acc kv => insertKey kv.1 kv.2 acc) base

theorem lookupKey_mergeHeaders_not_mem (base hs : List (String × String)) (hk : String)
    (h : hk ∉ hs.map Prod.fst) :
    lookupKey hk (mergeHeaders base hs) = lookupKey hk base := by
  induction hs generalizing base with
  | nil => rfl
  | cons kv rest ih =>
    simp only [List.map_cons, List.mem_cons] at h
    push_neg at h
    have := ih (insertKey kv.1 kv.2 base) h.2
    simpa [mergeHeaders, lookupKey_insertKey_ne kv.1 hk kv.2 base h.1] using this

theorem lookupKey_mergeHeaders_mem (base hs : List (String × String)) (hk hv : String)
    (hnd : (hs.map Prod.fst).Nodup) (hmem : (hk, hv) ∈ hs) :
    lookupKey hk (mergeHeaders base hs) = some hv := by
  induction hs generalizing base with
  | nil => cases hmem
  | cons kv rest ih =>
    simp only [List.map_cons, List.nodup_cons] at hnd
    rcases List.mem_cons.mp hmem with heq | hmem'
    · subst heq
      have hnot : hk ∉ rest.map Prod.fst := hnd.1
      have := lookupKey_mergeHeaders_not_mem (insertKey hk hv base) rest hk hnot
      simpa [mergeHeaders, lookupKey_insertKey_self] using this
    · exact ih (insertKey kv.1 kv.2 base) hnd.2 hmem'

/-!
## Idempotency store (`InMemoryIdempotencyStore`, middleware.go)
-/

/-- `IdempotencyRecord` from middleware.go. -/
structure IdempotencyRecord where
  key : String
  statusCode : Int
  headers : List (String × String)
  body : String
  createdAt : Int
  expiresAt : Int
  deriving Repr, DecidableEq

/-- `InMemoryIdempotencyStore.Get`: absent keys and records with
`time.Now().After(ExpiresAt)` (strictly past expiry) behave as missing. -/
def idemGet (records : List (String × IdempotencyRecord)) (key : String) (now : Int) :
    Option IdempotencyRecord :=
  match lookupKey key records with
  | none => none
  | some r => if now > r.expiresAt then none else some r

/-- `InMemoryIdempotencyStore.Set`: stores unconditionally, stamping the key
and creation time and defaulting expiry to creation plus 24h (modelled as
86400 time units) when the caller left it zero. -/
def idemSet (records : List (String × IdempotencyRecord)) (key : String)
    (r : IdempotencyRecord) (now : Int) : List (String × IdempotencyRecord) :=
  let r' := { r with key := key, createdAt := now
                     expiresAt := if r.expiresAt = 0 then now + 86400 else r.expiresAt }
  insertKey key r' records

/-!
## AI-first middleware (`AIFirstMiddleware`, middleware.go)
-/

/-- The fields of `APIEndpoint` the middleware consults for pricing. -/
structure APIEndpointInfo where
  path : String
  method : String
  name : String
  cost : Int
  currency : String
  costUnit : String
  deriving Repr, DecidableEq

/-- `AIFirstConfig`: the stores are passed separately as explicit state. -/
structure AIFirstConfig where
  endpoints : List APIEndpointInfo
  payTo : String
  network : String
  currency : String
  asset : String
  enablePreAuth : Bool
  enableIdempotency : Bool
  idempotencyTTL : Int
  defaultCost : Int

/-- `getCostForPath`: first endpoint matching path and method wins, else the
default cost. -/
def getCostForPath (path method : String) (endpoints : List APIEndpointInfo)
    (defaultCost : Int) : Int :=
  match endpoints.find? (fun ep => ep.path = path && ep.method = method) with
  | some ep => ep.cost
  | none => defaultCost

/-- `sendAIError` reduced to its externally visible part: the status code
chosen from the error code, the JSON content type, and a JSON error body
(the request-id/timestamp metadata of `AIResponse` carries no checked logic
and is elided from the body model). -/
def sendAIError (baseHeaders : List (String × String)) (code message : String) :
    HttpResponse :=
  { status :=
      if code = "PAYMENT_REQUIRED" || code = "INSUFFICIENT_BUDGET" then 402
      else if code = "RATE_LIMITED" then 429
      else if code = "NOT_FOUND" then 404
      else if code = "INVALID_REQUEST" then 400
      else 500
    headers := setHeader baseHeaders "Content-Type" "application/json"
    body := renderJson (.jobj [("success", .jbool false),
      ("error", .jobj [("code", .jstr code), ("message", .jstr message)])]) }

/-- The outcome of one middleware invocation: the response, the two store
states afterwards, and whether the downstream handler ran. -/
structure MWResult where
  response : HttpResponse
  preAuth : PreAuthStoreState
  idem : List (String × IdempotencyRecord)
  handlerInvoked : Bool

/-- The tail of `AIFirstMiddleware` shared by the non-replay paths: run the
downstream handler through the recorder and, when idempotency is on and a key
was present, store the completed response. -/
def aiFirstFinish (cfg : AIFirstConfig) (idem : List (String × IdempotencyRecord))
    (idempKey : String) (hdrs : List (String × String)) (preAuth : PreAuthStoreState)
    (next : HttpRequest → HttpResponse) (req : HttpRequest) (now : Int) : MWResult :=
  let resp := next req
  let finalHeaders := mergeHeaders hdrs resp.headers
  let finalResp : HttpResponse := { status := resp.status, headers := finalHeaders, body := resp.body }
  let idem' :=
    if cfg.enableIdempotency && idempKey != "" then
      let ttl := if cfg.idempotencyTTL = 0 then 86400 else cfg.idempotencyTTL
      idemSet idem idempKey
        { key := "", statusCode := resp.status, headers := finalHeaders, body := resp.body
          createdAt := 0, expiresAt := now + ttl } now
    else idem
  { response := finalResp, preAuth := preAuth, idem := idem', handlerInvoked := true }

/-- `AIFirstMiddleware` from middleware.go: base AI headers, idempotent
replay, pre-authorized budget deduction, then the downstream handler and
idempotency capture. `requestID` stands for `generateRequestID(r)`, whose
sha256-of-clock value is opaque to every property below. -/
def aiBaseHeaders (requestID : String) : List (String × String) :=
  setHeader (setHeader (setHeader [] "Content-Type" "application/json")
    "X-Request-ID" requestID) "X-AI-Optimized" "true"

/-- The middleware body, with `aiBaseHeaders` as the headers set up-front. -/
def aiFirstMiddleware (cfg : AIFirstConfig) (preAuth : PreAuthStoreState)
    (idem : List (String × IdempotencyRecord)) (next : HttpRequest → HttpResponse)
    (req : HttpRequest) (now : Int) (requestID : String) : MWResult :=
  let baseHeaders := aiBaseHeaders requestID
  let idempKey := getHeader req "Idempotency-Key"
  let replay : Option IdempotencyRecord :=
    if cfg.enableIdempotency && idempKey != "" then idemGet idem idempKey now else none
  match replay with
  | some record =>
    { response := { status := record.statusCode
                    headers := setHeader (mergeHeaders baseHeaders record.headers)
                      "X-Idempotent-Replay" "true"
                    body := record.body }
      preAuth := preAuth, idem := idem, handlerInvoked := false }
  | none =>
    let agentID := getHeader req "X-Agent-ID"
    let budgetOpt :=
      if cfg.enablePreAuth && agentID != "" then preAuthGetByAgent preAuth agentID else none
    match budgetOpt with
    | none => aiFirstFinish cfg idem idempKey baseHeaders preAuth next req now
    | some budget =>
      let cost := getCostForPath req.path req.method cfg.endpoints cfg.defaultCost
      if budget.remaining < cost then
        { response := sendAIError baseHeaders "INSUFFICIENT_BUDGET" "Pre-authorized budget exhausted"
          preAuth := preAuth, idem := idem, handlerInvoked := false }
      else
        match preAuthDeduct preAuth budget.id cost with
        | (some _, s') =>
          { response := sendAIError baseHeaders "SERVER_ERROR" "Failed to deduct from budget"
            preAuth := s', idem := idem, handlerInvoked := false }
        | (none, s') =>
          let remaining' := match lookupKey budget.id s'.budgets with
            | some b => b.remaining
            | none => 0
          let hdrs := setHeader (setHeader baseHeaders
            "X-Budget-Remaining" (intRepr remaining')) "X-Budget-Deducted" (intRepr cost)
          let req' := { req with headers := insertKey "X-Payment-Verified" "true" req.headers }
          aiFirstFinish cfg idem idempKey hdrs s' next req' now

/-- C3 (amended): `Get(k)` returns the cached record exactly when a record
for `k` is present and the current time is not yet strictly after its expiry
(`now ≤ expiresAt`; the source masks a record only once `time.Now().After(ExpiresAt)`),
and otherwise behaves as absent; a second request carrying the same
idempotency key while the record is unexpired is answered by the AI-first
middleware with the cached status code, headers and body, without invoking
the downstream handler and without touching either store. -/
theorem idemGet_replay_spec (records : List (String × IdempotencyRecord))
    (key : String) (now : Int) :
    (∀ r : IdempotencyRecord,
      idemGet records key now = some r ↔
        lookupKey key records = some r ∧ now ≤ r.expiresAt) ∧
    (∀ (cfg : AIFirstConfig) (preAuth : PreAuthStoreState)
        (next : HttpRequest → HttpResponse) (req : HttpRequest) (requestID : String)
        (record : IdempotencyRecord),
      cfg.enableIdempotency = true →
      getHeader req "Idempotency-Key" = key → key ≠ "" →
      idemGet records key now = some record →
      (aiFirstMiddleware cfg preAuth records next req now requestID).response.status
          = record.statusCode ∧
      (aiFirstMiddleware cfg preAuth records next req now requestID).response.body
          = record.body ∧
      (aiFirstMiddleware cfg preAuth records next req now requestID).preAuth = preAuth ∧
      (aiFirstMiddleware cfg preAuth records next req now requestID).idem = records ∧
      (aiFirstMiddleware cfg preAuth records next req now requestID).handlerInvoked = false ∧
      ((record.headers.map Prod.fst).Nodup →
        ∀ hk hv : String, (hk, hv) ∈ record.headers → hk ≠ "X-Idempotent-Replay" →
          lookupKey hk
            (aiFirstMiddleware cfg preAuth records next req now requestID).response.headers
            = some hv)) := by
  constructor
  · intro r
    unfold idemGet
    cases hl : lookupKey key records with
    | none => simp
    | some r' =>
      by_cases hgt : now > r'.expiresAt
      · simp only [hgt, if_pos]
        constructor
        · intro h; cases h
        · rintro ⟨he, hle⟩
          injection he with he
          subst he; omega
      · simp only [hgt, if_neg]
        constructor
        · intro h
          injection h with h
          subst h
          exact ⟨rfl, by omega⟩
        · rintro ⟨he, _⟩
          injection he with he
          subst he; rfl
  · intro cfg preAuth next req requestID record hena hkh hkne hget
    have hmw : aiFirstMiddleware cfg preAuth records next req now requestID =
        { response := { status := record.statusCode
                        headers := setHeader (mergeHeaders (aiBaseHeaders requestID)
                          record.headers) "X-Idempotent-Replay" "true"
                        body := record.body }
          preAuth := preAuth, idem := records, handlerInvoked := false } := by
      simp [aiFirstMiddleware, hkh, hena, hkne, hget]
    rw [hmw]
    refine ⟨rfl, rfl, rfl, rfl, rfl, fun hnd hk hv hmem hkrep => ?_⟩
    show lookupKey hk (insertKey "X-Idempotent-Replay" "true"
      (mergeHeaders (aiBaseHeaders requestID) record.headers)) = some hv
    rw [lookupKey_insertKey_ne _ _ _ _ hkrep]
    exact lookupKey_mergeHeaders_mem _ _ _ _ hnd hmem

/-- The boundary record for the C3 counterexample. -/
def cexIdemRecord : IdempotencyRecord :=
  { key := "k", statusCode := 200, headers := [], body := "ok", createdAt := 0, expiresAt := 100 }

/-- Counterexample to C3 as stated: at `now = expiresAt` the store still
returns the record (`After` is strict), while the claimed condition
`now < expiresAt` is false — so "returns the record exactly when
`now < expiresAt`" fails at the boundary. -/
theorem idemGet_boundary_cex :
    idemGet [("k", cexIdemRecord)] "k" 100 = some cexIdemRecord ∧
    ¬ (100 < cexIdemRecord.expiresAt) := by
  decide

/-- Concrete replay scenario for the C3 witness. -/
def wIdemRecord : IdempotencyRecord :=
  { key := "k", statusCode := 201, headers := [("X-Served-By", "cache")], body := "cached"
    createdAt := 0, expiresAt := 100 }

def wIdemCfg : AIFirstConfig :=
  { endpoints := [], payTo := "", network := "", currency := "", asset := ""
    enablePreAuth := false, enableIdempotency := true, idempotencyTTL := 0, defaultCost := 0 }

def wIdemReq : HttpRequest :=
  { method := "GET", path := "/a", rawQuery := "", query := []
    headers := [("Idempotency-Key", "k")] }

def wIdemNext : HttpRequest → HttpResponse :=
  fun _ => { status := 200, headers := [], body := "fresh" }

/-- Witness for C3 (amended): a concrete second request with the cached key
is served the cached status, header and body with the handler not invoked. -/
theorem idemGet_replay_spec_witness :
    (aiFirstMiddleware wIdemCfg ⟨[], []⟩ [("k", wIdemRecord)] wIdemNext wIdemReq 50 "rid").response.status = 201 ∧
    (aiFirstMiddleware wIdemCfg ⟨[], []⟩ [("k", wIdemRecord)] wIdemNext wIdemReq 50 "rid").response.body = "cached" ∧
    (aiFirstMiddleware wIdemCfg ⟨[], []⟩ [("k", wIdemRecord)] wIdemNext wIdemReq 50 "rid").handlerInvoked = false ∧
    lookupKey "X-Served-By"
      (aiFirstMiddleware wIdemCfg ⟨[], []⟩ [("k", wIdemRecord)] wIdemNext wIdemReq 50 "rid").response.headers = some "cache" := by
  have h := (idemGet_replay_spec [("k", wIdemRecord)] "k" 50).2 wIdemCfg ⟨[], []⟩
    wIdemNext wIdemReq "rid" wIdemRecord rfl (by decide) (by decide) (by decide)
  exact ⟨h.1, h.2.1, h.2.2.2.2.1,
    h.2.2.2.2.2 (by decide) "X-Served-By" "cache" (by decide) (by decide)⟩

/-!
## Metering store (`InMemoryMeteringStore`, usage metering file)
-/

/-- `UsageMetric`: one immutable record per completed request. -/
structure UsageMetric where
  timestamp : Int
  endpoint : String
  method : String
  payerID : String
  amountPaid : Int
  currency : String
  responseCode : Int
  latency : Int
  paymentType : String
  sessionID : String
  userAgent : String
  isAIAgent : Bool
  deriving Repr, DecidableEq

/-- The state of `InMemoryMeteringStore` (the mutex elided as before). -/
structure MeteringStoreState where
  metrics : List UsageMetric
  maxSize : Int
  currency : String
  deriving Repr, DecidableEq

/-- `NewInMemoryMeteringStore`: non-positive capacity falls back to 100000,
empty currency to "USDC". -/
def newMeteringStore (maxSize : Int) (currency : String) : MeteringStoreState :=
  { metrics := []
    maxSize := if maxSize ≤ 0 then 100000 else maxSize
    currency := if currency = "" then "USDC" else currency }

/-- `RecordRequest`: when at (or beyond) capacity, drop the single oldest
entry (`metrics[1:]`), then append. -/
def recordRequest (s : MeteringStoreState) (m : UsageMetric) : MeteringStoreState :=
  let ms := if (s.metrics.length : Int) ≥ s.maxSize then s.metrics.drop 1 else s.metrics
  { s with metrics := ms ++ [m] }

/-- Ring-buffer invariant for `recordRequest` folds: starting from any state
holding at most `c` records (with capacity exactly `c > 0`), the contents
after recording `ms` are the suffix of `old ++ ms` that fits. -/
theorem recordRequest_foldl (c : Nat) (hc : 0 < c) :
    ∀ (ms : List UsageMetric) (s : MeteringStoreState),
      s.maxSize = (c : Int) → s.metrics.length ≤ c →
      (ms.foldl recordRequest s).metrics =
        (s.metrics ++ ms).drop (s.metrics.length + ms.length - c) := by
  intro ms
  induction ms with
  | nil =>
    intro s _ hlen
    simp [Nat.sub_eq_zero_of_le hlen]
  | cons m t ih =>
    intro s hmax hlen
    by_cases hfull : s.metrics.length = c
    · have hcond : ((s.metrics.length : Int) ≥ s.maxSize) := by rw [hmax, hfull]
      have hstep : recordRequest s m = { s with metrics := s.metrics.drop 1 ++ [m] } := by
        simp [recordRequest, hcond]
      have hlen' : (s.metrics.drop 1 ++ [m]).length ≤ c := by
        simp [List.length_drop]
        omega
      have hrec := ih (recordRequest s m) (by rw [hstep]; exact hmax) (by rw [hstep]; exact hlen')
      rw [List.foldl_cons, hrec, hstep]
      obtain ⟨a, rest, hsm⟩ : ∃ a rest, s.metrics = a :: rest := by
        cases hsm : s.metrics with
        | nil => rw [hsm] at hfull; simp at hfull; omega
        | cons a rest => exact ⟨a, rest, rfl⟩
      have hc' : rest.length + 1 = c := by
        have hf := hfull; rw [hsm] at hf; simpa using hf
      rw [hsm]
      simp only [List.drop_one, List.tail_cons, List.length_append, List.length_cons,
        List.length_nil, List.append_assoc, List.singleton_append, List.cons_append]
      have e1 : rest.length + (0 + 1) + t.length - c = t.length := by omega
      have e2 : rest.length + 1 + (t.length + 1) - c = t.length + 1 := by omega
      rw [e1, e2, List.drop_succ_cons]
      simp
    · have hlt : s.metrics.length < c := lt_of_le_of_ne hlen hfull
      have hcond : ¬ ((s.metrics.length : Int) ≥ s.maxSize) := by
        rw [hmax]
        exact_mod_cast not_le.mpr hlt
      have hstep : recordRequest s m = { s with metrics := s.metrics ++ [m] } := by
        simp [recordRequest, hcond]
      have hlen' : (s.metrics ++ [m]).length ≤ c := by simp; omega
      have hrec := ih (recordRequest s m) (by rw [hstep]; exact hmax) (by rw [hstep]; exact hlen')
      rw [List.foldl_cons, hrec, hstep]
      simp only [List.length_append, List.length_cons, List.length_nil, List.append_assoc,
        List.singleton_append]
      have h1 : s.metrics.length + (0 + 1) + t.length - c
          = s.metrics.length + (t.length + 1) - c := by omega
      rw [h1]

/-- C4: with capacity `c > 0` and `N > c` records inserted into a fresh
store, the store holds exactly `c` records, and they are precisely the last
`c` recorded metrics in insertion order. -/
theorem metering_bound (c : Nat) (ms : List UsageMetric)
    (hc : 0 < c) (hN : c < ms.length) :
    (ms.foldl recordRequest (newMeteringStore (c : Int) "")).metrics.length = c ∧
    (ms.foldl recordRequest (newMeteringStore (c : Int) "")).metrics
      = ms.drop (ms.length - c) := by
  have hmax : (newMeteringStore (c : Int) "").maxSize = (c : Int) := by
    have : ¬ ((c : Int) ≤ 0) := by exact_mod_cast not_le.mpr hc
    simp [newMeteringStore, this]
  have hfold := recordRequest_foldl c hc ms (newMeteringStore (c : Int) "") hmax
    (by simp [newMeteringStore])
  have hmet : (newMeteringStore (c : Int) "").metrics = [] := rfl
  rw [hmet] at hfold
  simp only [List.nil_append, List.length_nil, Nat.zero_add] at hfold
  refine ⟨?_, hfold⟩
  rw [hfold, List.length_drop]
  omega

/-- Witness for C4: capacity 2, three records; the store ends with exactly
the last two in order. -/
theorem metering_bound_witness :
    0 < 2 ∧ 2 < 3 ∧
    ([{ timestamp := 1, endpoint := "/a", method := "GET", payerID := "", amountPaid := 0
        currency := "", responseCode := 200, latency := 0, paymentType := "", sessionID := ""
        userAgent := "", isAIAgent := false },
      { timestamp := 2, endpoint := "/b", method := "GET", payerID := "", amountPaid := 0
        currency := "", responseCode := 200, latency := 0, paymentType := "", sessionID := ""
        userAgent := "", isAIAgent := false },
      { timestamp := 3, endpoint := "/c", method := "GET", payerID := "", amountPaid := 0
        currency := "", responseCode := 200, latency := 0, paymentType := "", sessionID := ""
        userAgent := "", isAIAgent := false }].foldl recordRequest
          (newMeteringStore 2 "")).metrics.length = 2 := by
  refine ⟨by decide, by decide, ?_⟩
  exact (metering_bound 2 _ (by decide) (by decide)).1

/-!
## Session store and middleware (session.go)
-/

/-- `Session` from session.go; `SessionType` is a Go string type, kept as
`String` ("time" / "requests" / "unlimited"); the `Metadata` map is elided. -/
structure Session where
  id : String
  payerAddress : String
  createdAt : Int
  expiresAt : Int
  sessionType : String
  maxRequests : Int
  usedRequests : Int
  amountPaid : Int
  currency : String
  allowedEndpoints : List String
  active : Bool
  deriving Repr, DecidableEq

/-- `matchesPattern` from session.go: `"*"`/`"/*"` match everything, a
pattern longer than two characters ending in `"/*"` is a literal prefix
match, anything else is an exact match. -/
def matchesPattern (path pattern : String) : Bool :=
  if pattern = "*" || pattern = "/*" then true
  else
    let pc := pattern.data
    if pc.length > 2 && decide (pc.drop (pc.length - 2) = ['/', '*']) then
      let pre := pc.take (pc.length - 2)
      decide (path.data.length ≥ pre.length) && decide (path.data.take pre.length = pre)
    else decide (path = pattern)

/-- `validateSession` from session.go, with the four checks in source order
and the exact reason strings. -/
def validateSession (session : Session) (path : String) (now : Int) : Option String :=
  if !session.active then some "session is inactive"
  else if now > session.expiresAt then some "session has expired"
  else if session.sessionType = "requests" ∧ session.usedRequests ≥ session.maxRequests then
    some "session request limit exceeded"
  else if session.allowedEndpoints.length > 0 then
    if session.allowedEndpoints.any (fun e => path = e || matchesPattern path e) then none
    else some "endpoint not allowed for this session"
  else none

/-- `formatInt64` from session.go (negative and zero both print "0"). -/
def formatInt64 (n : Int) : String :=
  if n < 0 then "0" else if n = 0 then "0" else Nat.repr n.toNat

/-- `formatSessionRemaining`; for time sessions Go prints the rounded
`time.Duration`, abstracted here as the remaining seconds followed by "s". -/
def formatSessionRemaining (session : Session) (now : Int) : String :=
  if session.sessionType = "requests" then
    formatInt64 (session.maxRequests - session.usedRequests) ++ " requests"
  else if session.sessionType = "time" then
    intRepr (session.expiresAt - now) ++ "s"
  else "unlimited"

/-- `sendSessionError`: 401 with a two-field JSON body (`encoding/json`
renders map keys sorted, so `error` precedes `message`). -/
def sendSessionError (code message : String) : HttpResponse :=
  { status := 401
    headers := setHeader [] "Content-Type" "application/json"
    body := renderJson (.jobj [("error", .jstr code), ("message", .jstr message)]) }

/-- `InMemorySessionStore.UpdateSession` (missing ids error out and the
middleware ignores the error, leaving the store unchanged). -/
def sessionUpdate (store : List (String × Session)) (session : Session) :
    List (String × Session) :=
  match lookupKey session.id store with
  | none => store
  | some _ => insertKey session.id session store

/-- `SessionMiddleware` from session.go: no/empty `X-Session-ID` forwards
untouched; an unknown id or failed validation yields the 401 session error;
otherwise request-bounded sessions get their counter incremented and the
request is forwarded with the session info headers set before the handler
runs (`X-Session-Expires` carries the RFC3339 expiry, abstracted as the
decimal instant). -/
def sessionMiddleware (store : List (String × Session)) (next : HttpRequest → HttpResponse)
    (req : HttpRequest) (now : Int) : HttpResponse × List (String × Session) :=
  let sessionID := getHeader req "X-Session-ID"
  if sessionID = "" then (next req, store)
  else
    match lookupKey sessionID store with
    | none => (sendSessionError "invalid_session" "Session not found or invalid", store)
    | some session =>
      match validateSession session req.path now with
      | some msg => (sendSessionError "session_error" msg, store)
      | none =>
        let upd :=
          if session.sessionType = "requests" then
            let s2 := { session with usedRequests := session.usedRequests + 1 }
            (s2, sessionUpdate store s2)
          else (session, store)
        let hdrs := setHeader (setHeader [] "X-Session-Remaining"
          (formatSessionRemaining upd.1 now)) "X-Session-Expires" (intRepr upd.1.expiresAt)
        let resp := next req
        ({ status := resp.status, headers := mergeHeaders hdrs resp.headers, body := resp.body },
          upd.2)

/-- C5: session validation checks, in order: active flag, expiry
(`now > expiresAt`), request-count exhaustion for request-bounded sessions
(`used ≥ max`, hence always at `used = max`), then the endpoint allow-list
(exact match or suffix-wildcard prefix match, empty list allows all); each
failing check returns its specific reason, and the middleware surfaces any
validation failure with HTTP status 401, not 402. -/
theorem validateSession_spec (s : Session) (path : String) (now : Int) :
    (s.active = false → validateSession s path now = some "session is inactive") ∧
    (s.active = true → now > s.expiresAt →
      validateSession s path now = some "session has expired") ∧
    (s.active = true → now ≤ s.expiresAt → s.sessionType = "requests" →
      s.usedRequests ≥ s.maxRequests →
      validateSession s path now = some "session request limit exceeded") ∧
    (s.active = true → now ≤ s.expiresAt →
      ¬ (s.sessionType = "requests" ∧ s.usedRequests ≥ s.maxRequests) →
      (validateSession s path now = none ↔
        (s.allowedEndpoints = [] ∨
          ∃ e ∈ s.allowedEndpoints, path = e ∨ matchesPattern path e = true))) ∧
    (∀ (store : List (String × Session)) (next : HttpRequest → HttpResponse)
        (req : HttpRequest) (msg : String),
      getHeader req "X-Session-ID" ≠ "" →
      lookupKey (getHeader req "X-Session-ID") store = some s →
      validateSession s req.path now = some msg →
      (sessionMiddleware store next req now).1.status = 401) := by
  have hnexp : ∀ hact : s.active = true, ∀ hle : now ≤ s.expiresAt,
      ¬ (now > s.expiresAt) := fun _ hle => not_lt.mpr hle
  refine ⟨fun h => ?_, fun hact hexp => ?_, fun hact hle hty hused => ?_,
    fun hact hle hnx => ?_, fun store next req msg hsid hlook hval => ?_⟩
  · simp [validateSession, h]
  · simp [validateSession, hact, hexp]
  · simp [validateSession, hact, hnexp hact hle, hty, hused]
  · rcases List.eq_nil_or_concat s.allowedEndpoints with hnil | ⟨_, _, hne⟩
    · simp [validateSession, hact, hnexp hact hle, hnx, hnil]
    · have hpos : s.allowedEndpoints.length > 0 := by
        rw [hne]; simp
      have hnenil : s.allowedEndpoints ≠ [] := by
        rw [hne]; simp
      by_cases hany : s.allowedEndpoints.any (fun e => path = e || matchesPattern path e) = true
      · have hex : ∃ e ∈ s.allowedEndpoints, path = e ∨ matchesPattern path e = true := by
          simpa [List.any_eq_true] using hany
        simp [validateSession, hact, hnexp hact hle, hnx, hpos, hany, hnenil, hex]
      · have hnex : ¬ ∃ e ∈ s.allowedEndpoints, path = e ∨ matchesPattern path e = true := by
          simpa [List.any_eq_true] using hany
        simp [validateSession, hact, hnexp hact hle, hnx, hpos, hany, hnenil, hnex]
  · simp [sessionMiddleware, hsid, hlook, hval, sendSessionError]

/-- Concrete exhausted session for the C5 witness. -/
def wSession : Session :=
  { id := "s1", payerAddress := "0xp", createdAt := 0, expiresAt := 100
    sessionType := "requests", maxRequests := 2, usedRequests := 2, amountPaid := 10
    currency := "USDC", allowedEndpoints := [], active := true }

def wSessReq : HttpRequest :=
  { method := "GET", path := "/api", rawQuery := "", query := []
    headers := [("X-Session-ID", "s1")] }

def wSessNext : HttpRequest → HttpResponse :=
  fun _ => { status := 200, headers := [], body := "ok" }

/-- Witness for C5: an active, unexpired, request-bounded session with
`used = max = 2` fails validation with the exhaustion reason and the
middleware answers 401. -/
theorem validateSession_spec_witness :
    validateSession wSession "/api" 50 = some "session request limit exceeded" ∧
    (sessionMiddleware [("s1", wSession)] wSessNext wSessReq 50).1.status = 401 :=
  ⟨(validateSession_spec wSession "/api" 50).2.2.1 rfl (by decide) rfl (by decide),
   (validateSession_spec wSession "/api" 50).2.2.2.2 [("s1", wSession)] wSessNext wSessReq
     "session request limit exceeded" (by decide) (by decide)
     ((validateSession_spec wSession "/api" 50).2.2.1 rfl (by decide) rfl (by decide))⟩

/-- C10: a request with no (or an empty) `X-Session-ID` header is forwarded
to the next handler unchanged: the session layer returns exactly the
handler's response, consults no store and leaves it untouched. -/
theorem sessionMiddleware_no_session (store : List (String × Session))
    (next : HttpRequest → HttpResponse) (req : HttpRequest) (now : Int)
    (h : getHeader req "X-Session-ID" = "") :
    sessionMiddleware store next req now = (next req, store) := by
  simp [sessionMiddleware, h]

def wNoSessReq : HttpRequest :=
  { method := "GET", path := "/api", rawQuery := "", query := [], headers := [] }

/-- Witness for C10 on a concrete request carrying no session header. -/
theorem sessionMiddleware_no_session_witness :
    sessionMiddleware [("s1", wSession)] wSessNext wNoSessReq 50
      = (wSessNext wNoSessReq, [("s1", wSession)]) :=
  sessionMiddleware_no_session [("s1", wSession)] wSessNext wNoSessReq 50 (by decide)

/-!
## Payment gate (x402 protocol middleware and scheme registry)
-/

/-- `Config` from the x402-protocol middleware file; the optional
`PaymentVerifier` callback returns `(valid, err)` in Go, modelled as
`Option Bool` with `none` standing for a returned error. -/
structure X402Config where
  payTo : String
  paymentEndpoint : String
  acceptedMethods : List String
  pricePerRequest : Int
  exemptPaths : List String
  currency : String
  network : String
  scheme : String
  asset : String
  description : String
  maxTimeoutSeconds : Int
  paymentVerifier : Option (String → Option Bool)

/-- `isExemptPath`: literal string-prefix matching over the configured list. -/
def isExemptPath (path : String) (exemptPaths : List String) : Bool :=
  exemptPaths.any (fun e => strHasPre path e)

/-- The `Authorization` loop inside `extractPaymentToken`: the first accepted
method whose `method ++ " "` prefixes the header wins, yielding the trimmed
remainder. -/
def authTokenOf (auth : String) : List String → Option String
  | [] => none
  | m :: rest =>
    if strHasPre auth (m ++ " ") then some (strTrimPre auth (m ++ " "))
    else authTokenOf auth rest

/-- `extractPaymentToken` (x402-protocol version): `PAYMENT-SIGNATURE`, then
`X-PAYMENT`, then the `Authorization` methods, then `X-Payment-Token`, then
the `payment_token` query parameter; first non-empty wins. -/
def extractPaymentToken (req : HttpRequest) (acceptedMethods : List String) : String :=
  let ps := getHeader req "PAYMENT-SIGNATURE"
  if ps ≠ "" then ps
  else
    let xp := getHeader req "X-PAYMENT"
    if xp ≠ "" then xp
    else
      let auth := getHeader req "Authorization"
      match (if auth ≠ "" then authTokenOf auth acceptedMethods else none) with
      | some t => t
      | none =>
        let pt := getHeader req "X-Payment-Token"
        if pt ≠ "" then pt else getQuery req "payment_token"

/-- `verifyPaymentToken`: the custom verifier when configured, else the
default `valid_`-prefixed test token rule. -/
def verifyPaymentToken (token : String) (cfg : X402Config) : Option Bool :=
  match cfg.paymentVerifier with
  | some f => f token
  | none => some (strHasPre token "valid_")

/-- UTF-8 encoding of one character (the Lean model of Go's string bytes). -/
def charUtf8 (c : Char) : List Nat :=
  let n := c.toNat
  if n < 128 then [n]
  else if n < 2048 then [192 + n / 64, 128 + n % 64]
  else if n < 65536 then [224 + n / 4096, 128 + (n / 64) % 64, 128 + n % 64]
  else [240 + n / 262144, 128 + (n / 4096) % 64, 128 + (n / 64) % 64, 128 + n % 64]

/-- The byte sequence of a string. -/
def strBytes (s : String) : List Nat :=
  s.data.foldr (fun c acc => charUtf8 c ++ acc) []

def base64Table : List Char :=
  "ABCDEFGHIJKLMNOPQRSTUVWXYZabcdefghijklmnopqrstuvwxyz0123456789+/".data

def b64c (n : Nat) : Char := base64Table.getD n '='

/-- Standard base64 with padding, the model of
`base64.StdEncoding.EncodeToString`. -/
def base64Encode : List Nat → String
  | [] => ""
  | [a] => ⟨[b64c (a / 4), b64c (a % 4 * 16), '=', '=']⟩
  | [a, b] => ⟨[b64c (a / 4), b64c (a % 4 * 16 + b / 16), b64c (b % 16 * 4), '=']⟩
  | a :: b :: c :: rest =>
    (⟨[b64c (a / 4), b64c (a % 4 * 16 + b / 16), b64c (b % 16 * 4 + c / 64), b64c (c % 64)]⟩ : String)
      ++ base64Encode rest

/-- `PaymentRequirements`; `OutputSchema` is always set to nil by this
package and rendered as JSON null; `Extra` only ever holds string values
(`facilitatorUrl`), so it is a string map here. -/
structure PaymentRequirements where
  scheme : String
  network : String
  maxAmountRequired : String
  resource : String
  description : String
  mimeType : String
  payTo : String
  maxTimeoutSeconds : Int
  asset : String
  extra : List (String × String)
  deriving Repr, DecidableEq

/-- `PaymentRequiredResponse`, the 402 body. -/
structure PaymentRequiredResponse where
  x402Version : Int
  accepts : List PaymentRequirements
  error : String
  deriving Repr, DecidableEq

/-- `json.Marshal` of one `PaymentRequirements`, following the struct tags:
field order as declared, `mimeType`/`asset`/`extra` dropped when empty
(`omitempty`), `outputSchema` always present as null. -/
def jsonOfRequirement (r : PaymentRequirements) : Json :=
  .jobj ([("scheme", .jstr r.scheme), ("network", .jstr r.network),
    ("maxAmountRequired", .jstr r.maxAmountRequired), ("resource", .jstr r.resource),
    ("description", .jstr r.description)]
    ++ (if r.mimeType = "" then [] else [("mimeType", .jstr r.mimeType)])
    ++ [("payTo", .jstr r.payTo), ("maxTimeoutSeconds", .jnum r.maxTimeoutSeconds)]
    ++ (if r.asset = "" then [] else [("asset", .jstr r.asset)])
    ++ [("outputSchema", .jnull)]
    ++ (if r.extra = [] then []
        else [("extra", .jobj (r.extra.map (fun kv => (kv.1, .jstr kv.2))))]))

/-- `json.Marshal` of the 402 body (`error` has `omitempty`). -/
def jsonOfPRR (resp : PaymentRequiredResponse) : Json :=
  .jobj ([("x402Version", .jnum resp.x402Version),
    ("accepts", .jarr (resp.accepts.map jsonOfRequirement))]
    ++ (if resp.error = "" then [] else [("error", .jstr resp.error)]))

/-- `PaymentPayload` from the multi-scheme file (fiat-only fields elided). -/
structure PaymentPayload where
  scheme : String
  network : String
  payload : String
  resource : String
  timestamp : Int
  signature : String
  payer : String
  nonce : String
  deriving Repr, DecidableEq

/-- `VerificationResult` (the pre-authorization id elided). -/
structure VerificationResult where
  valid : Bool
  message : String
  scheme : String
  network : String
  amount : String
  payer : String
  payTo : String
  timestamp : Int
  deriving Repr, DecidableEq

/-- One registered `PaymentScheme`: its supported network patterns and its
`Verify` behaviour (`none` models a returned Go error). `Type()` is the
registry key; `Settle` is unused by the gate paths under proof. -/
structure SchemeImpl where
  supportedNetworks : List String
  verify : PaymentPayload → PaymentRequirements → Option VerificationResult

/-- `isWildcardMatch`: patterns shorter than two characters or not ending in
`'*'` match nothing; otherwise the network must be strictly longer than the
pattern's literal prefix and start with it. -/
def isWildcardMatch (pattern network : String) : Bool :=
  if pattern.data.length < 2 then false
  else if pattern.data.getLast? = some '*' then
    let pre := pattern.data.dropLast
    decide (network.data.length > pre.length) && decide (network.data.take pre.length = pre)
  else false

/-- `SchemeRegistry.SupportsNetwork`: true when any registered scheme lists
the network exactly or via a wildcard pattern. -/
def supportsNetwork (registry : List (String × SchemeImpl)) (network : String) : Bool :=
  registry.any (fun kv =>
    kv.2.supportedNetworks.any (fun n => n = network || isWildcardMatch n network))

/-- C8 (amended): for every pattern of length at least two ending in a
trailing `'*'`, the wildcard match holds exactly when the network is strictly
longer than the pattern's literal prefix and begins with that prefix; a
pattern not ending in `'*'` wildcard-matches nothing (and so does the bare
one-character pattern `"*"`, see the counterexample); `SupportsNetwork(n)`
is true iff some registered scheme lists a network equal to `n` or a
wildcard pattern matching `n`. -/
theorem isWildcardMatch_spec (pattern network : String) :
    (2 ≤ pattern.data.length → pattern.data.getLast? = some '*' →
      (isWildcardMatch pattern network = true ↔
        pattern.data.dropLast.length < network.data.length ∧
        network.data.take pattern.data.dropLast.length = pattern.data.dropLast)) ∧
    (pattern.data.getLast? ≠ some '*' → isWildcardMatch pattern network = false) ∧
    (∀ registry : List (String × SchemeImpl),
      supportsNetwork registry network = true ↔
        ∃ kv ∈ registry, ∃ n ∈ kv.2.supportedNetworks,
          n = network ∨ isWildcardMatch n network = true) := by
  refine ⟨fun h2 hstar => ?_, fun hnstar => ?_, fun registry => ?_⟩
  · have hge : ¬ pattern.data.length < 2 := not_lt.mpr h2
    simp [isWildcardMatch, hge, hstar, Bool.and_eq_true, decide_eq_true_eq, and_comm]
    intro _ _
    exact h2
  · by_cases h2 : pattern.data.length < 2
    · simp [isWildcardMatch, h2]
      intro ha
      exact absurd h2 (not_lt.mpr ha)
    · simp [isWildcardMatch, h2, hnstar]
  · simp [supportsNetwork, List.any_eq_true]

/-- Counterexample to C8 as stated: the one-character pattern `"*"` ends in a
trailing `'*'` and the network `"x"` is strictly longer than its (empty)
literal prefix and begins with it, yet the source's length guard
(`len(pattern) < 2`) makes the match fail. -/
theorem isWildcardMatch_star_cex :
    "*".data.getLast? = some '*' ∧
    ("*".data.dropLast).length < "x".data.length ∧
    "x".data.take ("*".data.dropLast).length = "*".data.dropLast ∧
    isWildcardMatch "*" "x" = false := by
  decide

/-- A scheme listing the `fam:*` wildcard, for the C8 witness. -/
def wFamScheme : SchemeImpl :=
  { supportedNetworks := ["fam:*"], verify := fun _ _ => none }

/-- Witness for C8 (amended) on the spec's concrete examples. -/
theorem isWildcardMatch_spec_witness :
    isWildcardMatch "fam:*" "fam:123" = true ∧
    isWildcardMatch "fam:*" "fam:abc" = true ∧
    isWildcardMatch "fam:*" "other:123" = false ∧
    isWildcardMatch "fam:*" "fam" = false ∧
    supportsNetwork [("exact", wFamScheme)] "fam:123" = true := by
  refine ⟨((isWildcardMatch_spec "fam:*" "fam:123").1 (by decide) (by decide)).mpr (by decide),
    ((isWildcardMatch_spec "fam:*" "fam:abc").1 (by decide) (by decide)).mpr (by decide),
    by decide, by decide,
    ((isWildcardMatch_spec "fam:*" "fam:123").2.2 [("exact", wFamScheme)]).mpr
      ⟨("exact", wFamScheme), List.mem_singleton.mpr rfl, "fam:*",
        List.mem_singleton.mpr rfl, Or.inr (by decide)⟩⟩

/-- `sendPaymentRequired` (single-scheme x402 response): 402 with the
marshalled `PaymentRequiredResponse` as body (plus the `json.Encoder`
trailing newline) and the same JSON base64-encoded in the
`PAYMENT-REQUIRED` header. -/
def sendPaymentRequired (cfg : X402Config) (req : HttpRequest) : HttpResponse :=
  let resource := req.path ++ (if req.rawQuery ≠ "" then "?" ++ req.rawQuery else "")
  let scheme := if cfg.scheme = "" then "exact" else cfg.scheme
  let network := if cfg.network = "" then "base-sepolia" else cfg.network
  let maxTimeout := if cfg.maxTimeoutSeconds = 0 then 60 else cfg.maxTimeoutSeconds
  let description := if cfg.description = "" then
      "Payment of " ++ intRepr cfg.pricePerRequest ++ " " ++ cfg.currency ++ " required"
    else cfg.description
  let requirements : PaymentRequirements :=
    { scheme := scheme, network := network, maxAmountRequired := intRepr cfg.pricePerRequest
      resource := resource, description := description, mimeType := "", payTo := cfg.payTo
      maxTimeoutSeconds := maxTimeout, asset := cfg.asset, extra := [] }
  let response : PaymentRequiredResponse :=
    { x402Version := 1, accepts := [requirements], error := "X-PAYMENT header is required" }
  let responseJSON := renderJson (jsonOfPRR response)
  { status := 402
    headers := setHeader (setHeader [] "Content-Type" "application/json")
      "PAYMENT-REQUIRED" (base64Encode (strBytes responseJSON))
    body := responseJSON ++ "\n" }

/-- `Middleware` (single-scheme x402 gate): exemption check, token
extraction, verification, then forward with the verification headers
(the RFC3339 timestamp abstracted as the decimal instant). -/
def x402Middleware (cfg : X402Config) (next : HttpRequest → HttpResponse)
    (req : HttpRequest) (now : Int) : HttpResponse :=
  let cfg := if cfg.currency = "" then { cfg with currency := "USD" } else cfg
  if isExemptPath req.path cfg.exemptPaths then next req
  else
    let token := extractPaymentToken req cfg.acceptedMethods
    if token = "" then sendPaymentRequired cfg req
    else
      match verifyPaymentToken token cfg with
      | some true =>
        let hdrs := setHeader (setHeader [] "X-Payment-Verified" "true")
          "X-Payment-Timestamp" (intRepr now)
        let resp := next req
        { status := resp.status, headers := mergeHeaders hdrs resp.headers, body := resp.body }
      | _ => sendPaymentRequired cfg req

/-- C7: a path matching any configured exempt prefix (literal string-prefix
matching, so `/health` also exempts `/healthz`) is forwarded to the next
handler unchanged, with no token extraction, verification or any other
check. -/
theorem exemptPath_spec (path : String) (l : List String) :
    (isExemptPath path l = true ↔ ∃ p ∈ l, strHasPre path p = true) ∧
    (∀ (cfg : X402Config) (next : HttpRequest → HttpResponse) (req : HttpRequest)
        (now : Int) (p : String),
      p ∈ cfg.exemptPaths → strHasPre req.path p = true →
      x402Middleware cfg next req now = next req) := by
  constructor
  · simp [isExemptPath, List.any_eq_true]
  · intro cfg next req now p hp hpre
    have hex : isExemptPath req.path cfg.exemptPaths = true := by
      unfold isExemptPath
      rw [List.any_eq_true]
      exact ⟨p, hp, hpre⟩
    unfold x402Middleware
    by_cases hcur : cfg.currency = "" <;> simp [hcur, hex]

def wExemptCfg : X402Config :=
  { payTo := "0xseller", paymentEndpoint := "", acceptedMethods := ["Bearer"]
    pricePerRequest := 100, exemptPaths := ["/health"], currency := "USD", network := ""
    scheme := "", asset := "", description := "", maxTimeoutSeconds := 0
    paymentVerifier := none }

def wHealthzReq : HttpRequest :=
  { method := "GET", path := "/healthz", rawQuery := "", query := [], headers := [] }

def wGateNext : HttpRequest → HttpResponse :=
  fun _ => { status := 200, headers := [], body := "healthy" }

/-- Witness for C7: exempt prefix "/health" forwards "/healthz" untouched. -/
theorem exemptPath_spec_witness :
    x402Middleware wExemptCfg wGateNext wHealthzReq 0 = wGateNext wHealthzReq ∧
    strHasPre "/healthz" "/health" = true :=
  ⟨(exemptPath_spec "/healthz" ["/health"]).2 wExemptCfg wGateNext wHealthzReq 0 "/health"
    (by decide) (by decide), by decide⟩

/-!
## Multi-scheme payment gate (`MultiSchemeMiddleware`)
-/

/-- `MultiSchemeConfig`: the embedded `Config` plus the per-network tables.
The registry is passed to the middleware explicitly (Go falls back to the
global `DefaultRegistry` when nil). -/
structure MultiSchemeConfig where
  base : X402Config
  acceptedSchemes : List String
  acceptedNetworks : List String
  paymentAddresses : List (String × String)
  facilitatorURLs : List (String × String)

/-- The resource string `path[?rawQuery]` built by the gate. -/
def resourceOf (req : HttpRequest) : String :=
  req.path ++ (if req.rawQuery ≠ "" then "?" ++ req.rawQuery else "")

/-- `BuildMultiSchemeRequirements`: one requirement per accepted
scheme/network pair, with per-network payment-address overrides and optional
facilitator-URL extras; schemes default to `["exact"]` and networks to the
single base network when unset. -/
def buildMultiSchemeRequirements (c : MultiSchemeConfig) (resource : String) :
    List PaymentRequirements :=
  let schemes := if c.acceptedSchemes = [] then ["exact"] else c.acceptedSchemes
  let networks :=
    if c.acceptedNetworks = [] ∧ c.base.network ≠ "" then [c.base.network]
    else c.acceptedNetworks
  let maxTimeout := if c.base.maxTimeoutSeconds = 0 then 60 else c.base.maxTimeoutSeconds
  let description := if c.base.description = "" then
      "Payment of " ++ intRepr c.base.pricePerRequest ++ " " ++ c.base.currency ++ " required"
    else c.base.description
  (schemes.map (fun s => networks.map (fun n =>
    ({ scheme := s, network := n, maxAmountRequired := intRepr c.base.pricePerRequest
       resource := resource, description := description, mimeType := ""
       payTo := (lookupKey n c.paymentAddresses).getD c.base.payTo
       maxTimeoutSeconds := maxTimeout, asset := c.base.asset
       extra := match lookupKey n c.facilitatorURLs with
         | some u => [("facilitatorUrl", u)]
         | none => [] } : PaymentRequirements)))).flatten

/-- The offer set of the multi-scheme 402: the built requirements, or the
hard-coded exact/base-sepolia fallback when the build yields nothing. -/
def msmAccepts (c : MultiSchemeConfig) (resource : String) : List PaymentRequirements :=
  let reqs := buildMultiSchemeRequirements c resource
  if reqs = [] then
    [{ scheme := "exact", network := "base-sepolia"
       maxAmountRequired := intRepr c.base.pricePerRequest, resource := resource
       description := c.base.description, mimeType := "", payTo := c.base.payTo
       maxTimeoutSeconds := 60, asset := c.base.asset, extra := [] }]
  else reqs

/-- `sendMultiSchemePaymentRequired`: 402 with the marshalled body (plus the
`json.Encoder` newline) and the same JSON base64-encoded in the
`PAYMENT-REQUIRED` header. -/
def sendMultiSchemePaymentRequired (c : MultiSchemeConfig) (req : HttpRequest) :
    HttpResponse :=
  let resource := resourceOf req
  let response : PaymentRequiredResponse :=
    { x402Version := 1, accepts := msmAccepts c resource
      error := "Payment required - select a supported scheme and network" }
  let responseJSON := renderJson (jsonOfPRR response)
  { status := 402
    headers := setHeader (setHeader [] "Content-Type" "application/json")
      "PAYMENT-REQUIRED" (base64Encode (strBytes responseJSON))
    body := responseJSON ++ "\n" }

/-- The currency default applied at middleware construction. -/
def msmCfgNorm (c : MultiSchemeConfig) : MultiSchemeConfig :=
  if c.base.currency = "" then { c with base := { c.base with currency := "USD" } } else c

/-- The `PaymentRequirements` the gate hands to the scheme's `Verify`. -/
def msmVerifyRequirements (c : MultiSchemeConfig) (payload : PaymentPayload)
    (req : HttpRequest) : PaymentRequirements :=
  { scheme := payload.scheme, network := payload.network
    maxAmountRequired := intRepr c.base.pricePerRequest, resource := resourceOf req
    description := "", mimeType := "", payTo := c.base.payTo
    maxTimeoutSeconds := c.base.maxTimeoutSeconds, asset := c.base.asset, extra := [] }

/-- `MultiSchemeMiddleware`: exemption, token extraction, payload parsing
(`parse` models `parsePaymentPayload`, whose base64/JSON decoding is
standard-library code), registry lookup, verification, then forward with the
payment headers; every rejection calls `sendMultiSchemePaymentRequired`. -/
def multiSchemeMiddleware (c : MultiSchemeConfig) (registry : List (String × SchemeImpl))
    (parse : String → Option PaymentPayload) (next : HttpRequest → HttpResponse)
    (req : HttpRequest) : HttpResponse :=
  let c := msmCfgNorm c
  if isExemptPath req.path c.base.exemptPaths then next req
  else
    let token := extractPaymentToken req c.base.acceptedMethods
    if token = "" then sendMultiSchemePaymentRequired c req
    else
      match parse token with
      | none => sendMultiSchemePaymentRequired c req
      | some payload =>
        match lookupKey payload.scheme registry with
        | none => sendMultiSchemePaymentRequired c req
        | some schemeImpl =>
          match schemeImpl.verify payload (msmVerifyRequirements c payload req) with
          | none => sendMultiSchemePaymentRequired c req
          | some result =>
            if !result.valid then sendMultiSchemePaymentRequired c req
            else
              let hdrs := setHeader (setHeader (setHeader (setHeader []
                "X-Payment-Verified" "true") "X-Payment-Scheme" payload.scheme)
                "X-Payment-Network" payload.network)
                "X-Payment-Timestamp" (intRepr payload.timestamp)
              let resp := next req
              { status := resp.status, headers := mergeHeaders hdrs resp.headers
                body := resp.body }

/-- C6: on a non-exempt path, every rejection (no token, unparseable payload,
unregistered scheme, verifier error or invalid result) produces the one
response `sendMultiSchemePaymentRequired`: HTTP 402 whose body is the JSON
`x402Version`/`accepts`/`error` object (plus the encoder newline) and whose
`PAYMENT-REQUIRED` header is the base64 encoding of that same JSON payload. -/
theorem multiScheme_reject_spec (c : MultiSchemeConfig)
    (registry : List (String × SchemeImpl)) (parse : String → Option PaymentPayload)
    (next : HttpRequest → HttpResponse) (req : HttpRequest) :
    (isExemptPath req.path (msmCfgNorm c).base.exemptPaths = false →
      (extractPaymentToken req (msmCfgNorm c).base.acceptedMethods = "" →
        multiSchemeMiddleware c registry parse next req
          = sendMultiSchemePaymentRequired (msmCfgNorm c) req) ∧
      (extractPaymentToken req (msmCfgNorm c).base.acceptedMethods ≠ "" →
        parse (extractPaymentToken req (msmCfgNorm c).base.acceptedMethods) = none →
        multiSchemeMiddleware c registry parse next req
          = sendMultiSchemePaymentRequired (msmCfgNorm c) req) ∧
      (∀ payload : PaymentPayload,
        extractPaymentToken req (msmCfgNorm c).base.acceptedMethods ≠ "" →
        parse (extractPaymentToken req (msmCfgNorm c).base.acceptedMethods) = some payload →
        lookupKey payload.scheme registry = none →
        multiSchemeMiddleware c registry parse next req
          = sendMultiSchemePaymentRequired (msmCfgNorm c) req) ∧
      (∀ (payload : PaymentPayload) (schemeImpl : SchemeImpl),
        extractPaymentToken req (msmCfgNorm c).base.acceptedMethods ≠ "" →
        parse (extractPaymentToken req (msmCfgNorm c).base.acceptedMethods) = some payload →
        lookupKey payload.scheme registry = some schemeImpl →
        (schemeImpl.verify payload (msmVerifyRequirements (msmCfgNorm c) payload req) = none ∨
          ∃ result : VerificationResult,
            schemeImpl.verify payload (msmVerifyRequirements (msmCfgNorm c) payload req)
              = some result ∧ result.valid = false) →
        multiSchemeMiddleware c registry parse next req
          = sendMultiSchemePaymentRequired (msmCfgNorm c) req)) ∧
    ((sendMultiSchemePaymentRequired (msmCfgNorm c) req).status = 402 ∧
      (sendMultiSchemePaymentRequired (msmCfgNorm c) req).body
        = renderJson (jsonOfPRR
            { x402Version := 1, accepts := msmAccepts (msmCfgNorm c) (resourceOf req)
              error := "Payment required - select a supported scheme and network" }) ++ "\n" ∧
      lookupKey "PAYMENT-REQUIRED" (sendMultiSchemePaymentRequired (msmCfgNorm c) req).headers
        = some (base64Encode (strBytes (renderJson (jsonOfPRR
            { x402Version := 1, accepts := msmAccepts (msmCfgNorm c) (resourceOf req)
              error := "Payment required - select a supported scheme and network" }))))) := by
  constructor
  · intro hexempt
    refine ⟨fun htok => ?_, fun htok hparse => ?_, fun payload htok hparse hreg => ?_,
      fun payload schemeImpl htok hparse hreg hver => ?_⟩
    · simp [multiSchemeMiddleware, hexempt, htok]
    · simp [multiSchemeMiddleware, hexempt, htok, hparse]
    · simp [multiSchemeMiddleware, hexempt, htok, hparse, hreg]
    · rcases hver with herr | ⟨result, hres, hval⟩
      · simp [multiSchemeMiddleware, hexempt, htok, hparse, hreg, herr]
      · simp [multiSchemeMiddleware, hexempt, htok, hparse, hreg, hres, hval]
  · refine ⟨rfl, rfl, ?_⟩
    simp [sendMultiSchemePaymentRequired, setHeader, lookupKey_insertKey_self]

def wMsmCfg : MultiSchemeConfig :=
  { base := { payTo := "0xs", paymentEndpoint := "", acceptedMethods := []
              pricePerRequest := 5, exemptPaths := [], currency := "USD", network := "net1"
              scheme := "", asset := "", description := "d", maxTimeoutSeconds := 30
              paymentVerifier := none }
    acceptedSchemes := ["exact"], acceptedNetworks := ["net1"]
    paymentAddresses := [], facilitatorURLs := [] }

def wMsmReq : HttpRequest :=
  { method := "GET", path := "/api", rawQuery := "", query := [], headers := [] }

/-- Witness for C6: a concrete request with no payment token on a non-exempt
path gets exactly the 402 payment-required response, whose header is the
base64 of the body's JSON. -/
theorem multiScheme_reject_spec_witness :
    multiSchemeMiddleware wMsmCfg [] (fun _ => none) wGateNext wMsmReq
      = sendMultiSchemePaymentRequired (msmCfgNorm wMsmCfg) wMsmReq ∧
    (sendMultiSchemePaymentRequired (msmCfgNorm wMsmCfg) wMsmReq).status = 402 ∧
    lookupKey "PAYMENT-REQUIRED"
        (sendMultiSchemePaymentRequired (msmCfgNorm wMsmCfg) wMsmReq).headers
      = some (base64Encode (strBytes (renderJson (jsonOfPRR
          { x402Version := 1, accepts := msmAccepts (msmCfgNorm wMsmCfg) (resourceOf wMsmReq)
            error := "Payment required - select a supported scheme and network" })))) :=
  ⟨((multiScheme_reject_spec wMsmCfg [] (fun _ => none) wGateNext wMsmReq).1
      (by decide)).1 (by decide),
   (multiScheme_reject_spec wMsmCfg [] (fun _ => none) wGateNext wMsmReq).2.1,
   (multiScheme_reject_spec wMsmCfg [] (fun _ => none) wGateNext wMsmReq).2.2.2⟩
